import Mathlib

/-
Verification of the AppRunner custom domain association resource
(internal/service/apprunner/custom_domain_association.go): a shallow
embedding of the create/read/delete handlers, the identity codec, the
certificate-validation-record flattening, and the generic polling waiter.

Remote calls (AssociateCustomDomain, FindCustomDomain, Disassociate,
the two waits) are represented by their results, passed to the handlers
as explicit arguments; the handlers themselves are translated statement
by statement from the Go source.
-/

/-- `aws.ToString`: dereference a `*string`, nil becomes the empty string. -/
def awsToString (s : Option String) : String := s.getD ""

/-- Dereference of a `*bool` when stored into state: nil becomes false. -/
def awsToBool (b : Option Bool) : Bool := b.getD false

/-- The error kinds surfaced by the AWS SDK calls: the concrete
`types.ResourceNotFoundException`, or any other transport/API failure. -/
inductive AWSError where
  | resourceNotFoundException
  | remote (msg : String)
deriving DecidableEq, Repr

/-- `errs.IsA[*types.ResourceNotFoundException](err)` on a possibly-nil error. -/
def isResourceNotFound : Option AWSError → Bool
  | some AWSError.resourceNotFoundException => true
  | _ => false

/-- `types.CertificateValidationRecord`: Name/Type/Value are `*string`,
Status is a string-typed enum. -/
structure CertificateValidationRecord where
  name : Option String
  status : String
  type : Option String
  value : Option String
deriving DecidableEq, Repr

/-- One element of the flattened `certificate_validation_records` set:
the four computed string attributes. -/
structure FlattenedRecord where
  name : String
  status : String
  type : String
  value : String
deriving DecidableEq, Repr

/-- `flattenCustomDomainCertificateValidationRecords`: the source loop
appends, for each remote record in order, a map of the four fields. -/
def flattenCustomDomainCertificateValidationRecords :
    List CertificateValidationRecord → List FlattenedRecord
  | [] => []
  | record :: rest =>
    { name := awsToString record.name
      status := record.status
      type := awsToString record.type
      value := awsToString record.value } ::
      flattenCustomDomainCertificateValidationRecords rest

/-- `types.CustomDomain` as returned by `FindCustomDomain`. -/
structure CustomDomain where
  certificateValidationRecords : List CertificateValidationRecord
  domainName : Option String
  enableWWWSubdomain : Option Bool
  status : String
deriving DecidableEq, Repr

/-- The fields of `apprunner.AssociateCustomDomainOutput` the handler reads:
`output.CustomDomain.DomainName`, `output.DNSTarget`, `output.ServiceArn`. -/
structure AssociateCustomDomainOutput where
  customDomainDomainName : Option String
  dnsTarget : Option String
  serviceArn : Option String
deriving DecidableEq, Repr

/-- The `schema.ResourceData` attribute surface of this resource, together
with the identity (`d.Id()`) and the `d.IsNewResource()` flag. `d.SetId("")`
(dropping local state) is modelled as setting `id` to the empty string. -/
structure ResourceData where
  id : String
  isNewResource : Bool
  domain_name : String
  service_arn : String
  enable_www_subdomain : Bool
  dns_target : String
  status : String
  certificate_validation_records : List FlattenedRecord
deriving DecidableEq, Repr

/-- The distinct diagnostics the three handlers can return, each carrying
the context the corresponding `diag.Errorf`/`diag.FromErr` call embeds. -/
inductive Diag where
  | associatingError (domainName serviceArn : String) (err : AWSError)
  | associatingEmptyOutput (domainName serviceArn : String)
  | waitingForCreationError (id : String) (err : String)
  | parseIDError (msg : String)
  | emptyOutputAfterCreation (id : String)
  | disassociatingError (domainName serviceArn : String) (err : AWSError)
  | waitingForDeletionError (id : String) (err : AWSError)
deriving DecidableEq, Repr

/-- A handler invocation returns diagnostics (`none` = success) and leaves
the resource data in some final state. -/
structure HandlerResult where
  diags : Option Diag
  d : ResourceData
deriving DecidableEq, Repr

/-- Go `strings.Split` on the single-character separator: splits at every
occurrence of the comma; the empty input yields one empty segment. -/
def splitOnComma : List Char → List (List Char)
  | [] => [[]]
  | c :: rest =>
    if c = ',' then [] :: splitOnComma rest
    else
      match splitOnComma rest with
      | [] => [[c]]
      | seg :: segs => (c :: seg) :: segs

/-- The fixed error of the identity decoder. -/
def malformedIdentityMessage : String := "MalformedIdentity"

/-- Modelled from the spec: `CustomDomainAssociationParseID` is not part of
the source tree under verification (only its callers are). Per spec section
4.1, Decode splits the identity on the delimiter and fails with a
`MalformedIdentity` error unless the split yields exactly two non-empty
segments; it performs no other validation. -/
def customDomainAssociationParseID (id : String) : Except String (String × String) :=
  match splitOnComma id.data with
  | [a, b] =>
    if a = [] ∨ b = [] then Except.error malformedIdentityMessage
    else Except.ok (String.mk a, String.mk b)
  | _ => Except.error malformedIdentityMessage

/-- The identity built at line 110 of the source:
`fmt.Sprintf("%s,%s", domainName, serviceArn)`. -/
def encodeCustomDomainAssociationID (domainName serviceArn : String) : String :=
  domainName ++ "," ++ serviceArn

/-- `resourceCustomDomainAssociationRead`. `customDomain` and `findErr` are
the two results of the `FindCustomDomain` call (per the collaborator
contract of spec section 4.2, an error implies `customDomain = none`, but
the handler is embedded as written and checks both independently). -/
def resourceCustomDomainAssociationRead (d : ResourceData)
    (customDomain : Option CustomDomain) (findErr : Option AWSError) :
    HandlerResult :=
  match customDomainAssociationParseID d.id with
  | Except.error msg => ⟨some (Diag.parseIDError msg), d⟩
  | Except.ok (_domainName, serviceArn) =>
    if !d.isNewResource && isResourceNotFound findErr then
      ⟨none, { d with id := "" }⟩
    else
      match customDomain with
      | none =>
        if d.isNewResource then ⟨some (Diag.emptyOutputAfterCreation d.id), d⟩
        else ⟨none, { d with id := "" }⟩
      | some cd =>
        ⟨none, { d with
          certificate_validation_records :=
            flattenCustomDomainCertificateValidationRecords
              cd.certificateValidationRecords
          domain_name := awsToString cd.domainName
          enable_www_subdomain := awsToBool cd.enableWWWSubdomain
          service_arn := serviceArn
          status := cd.status }⟩

/-- `resourceCustomDomainAssociationCreate`. `associateResult` is the result
of `conn.AssociateCustomDomain` (error, nil output, or output);
`waitCreatedResult` the error returned by `WaitCustomDomainAssociationCreated`
(`none` = success); `customDomain`/`findErr` feed the trailing Read. -/
def resourceCustomDomainAssociationCreate (d : ResourceData)
    (associateResult : Except AWSError (Option AssociateCustomDomainOutput))
    (waitCreatedResult : Option String)
    (customDomain : Option CustomDomain) (findErr : Option AWSError) :
    HandlerResult :=
  match associateResult with
  | Except.error e => ⟨some (Diag.associatingError d.domain_name d.service_arn e), d⟩
  | Except.ok none => ⟨some (Diag.associatingEmptyOutput d.domain_name d.service_arn), d⟩
  | Except.ok (some output) =>
    let d1 := { d with
      id := encodeCustomDomainAssociationID
        (awsToString output.customDomainDomainName) (awsToString output.serviceArn)
      dns_target := awsToString output.dnsTarget }
    match waitCreatedResult with
    | some e => ⟨some (Diag.waitingForCreationError d1.id e), d1⟩
    | none => resourceCustomDomainAssociationRead d1 customDomain findErr

/-- `resourceCustomDomainAssociationDelete`. `disassociateErr` is the error of
`conn.DisassociateCustomDomain` (`none` = success); `waitDeletedResult` the
error returned by `WaitCustomDomainAssociationDeleted` (`none` = success). -/
def resourceCustomDomainAssociationDelete (d : ResourceData)
    (disassociateErr : Option AWSError) (waitDeletedResult : Option AWSError) :
    HandlerResult :=
  match customDomainAssociationParseID d.id with
  | Except.error msg => ⟨some (Diag.parseIDError msg), d⟩
  | Except.ok (domainName, serviceArn) =>
    if isResourceNotFound disassociateErr then ⟨none, d⟩
    else
      match disassociateErr with
      | some e => ⟨some (Diag.disassociatingError domainName serviceArn e), d⟩
      | none =>
        match waitDeletedResult with
        | none => ⟨none, d⟩
        | some e =>
          if isResourceNotFound (some e) then ⟨none, d⟩
          else ⟨some (Diag.waitingForDeletionError d.id e), d⟩

/-- A single observation of remote state: a status value, or the first-class
absent marker. -/
inductive Observation where
  | status (s : String)
  | absent
deriving DecidableEq, Repr

/-- Terminal outcomes of the waiter. -/
inductive WaitOutcome where
  | succeeded
  | failed (s : String)
  | timedOut
  | probeError (e : String)
deriving DecidableEq, Repr

/-- Modelled from the spec: the generic polling Waiter of section 4.3 backing
`WaitCustomDomainAssociationCreated`/`Deleted`, which are not part of the
source tree under verification. `probe n` is the n-th observation (or a
transport error, propagated immediately as `probeError`); `success` the set
of success observations; `failure` the set of terminal-failure statuses;
`fuel` the number of remaining poll intervals before the deadline.
Returns the outcome and the number of probes issued (`i` starts at the
index of the first probe, normally 0). A success observation yields
`succeeded`; a failure status yields `failed` at once; otherwise the waiter
times out when the deadline has passed, else sleeps and repolls.
`waiterStep` classifies a single observation: a transport error propagates
as `probeError`; a success observation yields `succeeded`; a status in the
failure set yields `failed` naming it; `none` means keep polling. -/
def waiterStep (obs : Except String Observation) (success : List Observation)
    (failure : List String) : Option WaitOutcome :=
  match obs with
  | Except.error e => some (WaitOutcome.probeError e)
  | Except.ok o =>
    if o ∈ success then some WaitOutcome.succeeded
    else
      match o with
      | Observation.status s =>
        if s ∈ failure then some (WaitOutcome.failed s) else none
      | Observation.absent => none

def waiter (probe : Nat → Except String Observation)
    (success : List Observation) (failure : List String) :
    Nat → Nat → WaitOutcome × Nat
  | i, 0 =>
    match waiterStep (probe i) success failure with
    | some out => (out, i + 1)
    | none => (WaitOutcome.timedOut, i + 1)
  | i, f + 1 =>
    match waiterStep (probe i) success failure with
    | some out => (out, i + 1)
    | none => waiter probe success failure (i + 1) f

/-- Probe sequence of spec testable-property 5: first observation pending,
every later one create-failed. -/
def c8Probe : Nat → Except String Observation :=
  fun n =>
    if n = 0 then Except.ok (Observation.status ("pending"))
    else Except.ok (Observation.status ("create-failed"))

theorem splitOnComma_of_not_mem (l : List Char) (h : ',' ∉ l) :
    splitOnComma l = [l] := by
  induction l with
  | nil => rfl
  | cons c t ih =>
    have hc : c ≠ ',' := fun hc => h (by simp [hc])
    have ht : ',' ∉ t := fun hm => h (List.mem_cons_of_mem c hm)
    simp only [splitOnComma, if_neg hc, ih ht]

theorem splitOnComma_append (a b : List Char) (ha : ',' ∉ a) :
    splitOnComma (a ++ ',' :: b) = a :: splitOnComma b := by
  induction a with
  | nil => simp [splitOnComma]
  | cons c t ih =>
    have hc : c ≠ ',' := fun hc => ha (by simp [hc])
    have ht : ',' ∉ t := fun hm => ha (List.mem_cons_of_mem c hm)
    simp only [List.cons_append, splitOnComma, if_neg hc, List.append_eq]
    rw [ih ht]

/-- C6: round-trip law of the identity codec: for all non-empty strings a
and b not containing the delimiter, decoding the encoded composite identity
returns the pair (a, b). -/
theorem decode_encode_roundtrip (a b : String) (ha : a ≠ "") (hb : b ≠ "")
    (hca : ',' ∉ a.data) (hcb : ',' ∉ b.data) :
    customDomainAssociationParseID (encodeCustomDomainAssociationID a b) =
      Except.ok (a, b) := by
  have hdata : (encodeCustomDomainAssociationID a b).data = a.data ++ ',' :: b.data := by
    simp [encodeCustomDomainAssociationID, String.data_append]
  have hsplit : splitOnComma (encodeCustomDomainAssociationID a b).data =
      [a.data, b.data] := by
    rw [hdata, splitOnComma_append a.data b.data hca,
      splitOnComma_of_not_mem b.data hcb]
  have hA : a.data ≠ [] := fun h => ha (String.ext h)
  have hB : b.data ≠ [] := fun h => hb (String.ext h)
  unfold customDomainAssociationParseID
  rw [hsplit]
  simp [hA, hB]

/-- C6 witness: decoding the encoding of a concrete pair. -/
theorem decode_encode_roundtrip_witness :
    customDomainAssociationParseID
      (encodeCustomDomainAssociationID ("example.com") ("svc-1")) =
      Except.ok ("example.com", "svc-1") :=
  decode_encode_roundtrip ("example.com") ("svc-1")
    (by decide) (by decide) (by decide) (by decide)

/-- C7: the decoder fails with the `MalformedIdentity` error exactly when
splitting the input on the delimiter does not yield two non-empty segments;
when it does, the decoder returns those two segments unchanged, performing
no other validation. -/
theorem decode_malformed_iff :
    (∀ id : String,
      customDomainAssociationParseID id = Except.error malformedIdentityMessage ↔
        ¬ ∃ a b : List Char, splitOnComma id.data = [a, b] ∧ a ≠ [] ∧ b ≠ []) ∧
    (∀ (id : String) (a b : List Char),
      splitOnComma id.data = [a, b] → a ≠ [] → b ≠ [] →
        customDomainAssociationParseID id = Except.ok (String.mk a, String.mk b)) := by
  have hok : ∀ (id : String) (a b : List Char),
      splitOnComma id.data = [a, b] → a ≠ [] → b ≠ [] →
        customDomainAssociationParseID id = Except.ok (String.mk a, String.mk b) := by
    intro id a b hsplit ha hb
    unfold customDomainAssociationParseID
    rw [hsplit]
    simp [ha, hb]
  refine ⟨?_, hok⟩
  intro id
  constructor
  · intro hparse
    rintro ⟨a, b, hsplit, ha, hb⟩
    rw [hok id a b hsplit ha hb] at hparse
    exact Except.noConfusion hparse
  · intro hne
    unfold customDomainAssociationParseID
    cases hsplit : splitOnComma id.data with
    | nil => rfl
    | cons a t =>
      cases t with
      | nil => rfl
      | cons b t2 =>
        cases t2 with
        | nil =>
          by_cases hab : a = [] ∨ b = []
          · simp [hab]
          · push_neg at hab
            exact absurd ⟨a, b, hsplit, hab.1, hab.2⟩ hne
        | cons c t3 => rfl

/-- C7 witness: a well-formed identity decodes to its two segments, and an
input without the delimiter fails with the `MalformedIdentity` error. -/
theorem decode_malformed_iff_witness :
    customDomainAssociationParseID ("x,y") = Except.ok ("x", "y") ∧
    customDomainAssociationParseID ("malformed-no-delimiter") =
      Except.error malformedIdentityMessage := by
  constructor
  · exact decode_malformed_iff.2 ("x,y") (String.data ("x")) (String.data ("y"))
      (by decide) (by decide) (by decide)
  · refine (decode_malformed_iff.1 ("malformed-no-delimiter")).mpr ?_
    rintro ⟨a, b, hsplit, ha, hb⟩
    have hs : splitOnComma (String.data ("malformed-no-delimiter")) =
        [String.data ("malformed-no-delimiter")] := by decide
    rw [hs] at hsplit
    simp at hsplit

/-- C1 evidence: when the Describe step fails with an error that is neither
absence nor a not-found (here a generic remote failure) on an existing
resource, Read returns no diagnostics and drops the local state (sets the
identity to the empty string) — the remote error is suppressed and treated
as absence instead of being surfaced. -/
theorem read_suppresses_remote_error :
    resourceCustomDomainAssociationRead
      ⟨"example.com,arn:aws:apprunner:svc", false, "example.com",
        "arn:aws:apprunner:svc", true, "dns", "active", []⟩
      none (some (AWSError.remote ("InternalFailure"))) =
      ⟨none, ⟨"", false, "example.com", "arn:aws:apprunner:svc", true, "dns",
        "active", []⟩⟩ := by
  rfl

/-- C2: Delete is idempotent: a not-found from the Disassociate call, or a
not-found encountered during the deletion wait, makes Delete return success
with no diagnostics and the state untouched. -/
theorem delete_idempotent_on_not_found :
    (∀ (d : ResourceData) (w : Option AWSError) (p : String × String),
      customDomainAssociationParseID d.id = Except.ok p →
      resourceCustomDomainAssociationDelete d
        (some AWSError.resourceNotFoundException) w = ⟨none, d⟩) ∧
    (∀ (d : ResourceData) (p : String × String),
      customDomainAssociationParseID d.id = Except.ok p →
      resourceCustomDomainAssociationDelete d none
        (some AWSError.resourceNotFoundException) = ⟨none, d⟩) := by
  constructor
  · intro d w p hp
    obtain ⟨a, b⟩ := p
    simp [resourceCustomDomainAssociationDelete, hp, isResourceNotFound]
  · intro d p hp
    obtain ⟨a, b⟩ := p
    simp [resourceCustomDomainAssociationDelete, hp, isResourceNotFound]

/-- C2 witness: deleting an already-absent association succeeds. -/
theorem delete_idempotent_on_not_found_witness :
    resourceCustomDomainAssociationDelete
      ⟨"example.com,svc", false, "example.com", "svc", true, "dns", "active", []⟩
      (some AWSError.resourceNotFoundException) none =
      ⟨none, ⟨"example.com,svc", false, "example.com", "svc", true, "dns",
        "active", []⟩⟩ :=
  delete_idempotent_on_not_found.1
    ⟨"example.com,svc", false, "example.com", "svc", true, "dns", "active", []⟩
    none ("example.com", "svc") rfl

/-- C3: when Associate succeeds but the creation wait fails, Create returns
the wait error and the composite identity remains set in the state (it is
not cleared or rolled back, and it is never the empty string). -/
theorem create_wait_failure_keeps_identity :
    ∀ (d : ResourceData) (output : AssociateCustomDomainOutput) (e : String)
      (cd : Option CustomDomain) (ferr : Option AWSError),
      resourceCustomDomainAssociationCreate d
          (Except.ok (some output)) (some e) cd ferr =
        ⟨some (Diag.waitingForCreationError
            (encodeCustomDomainAssociationID
              (awsToString output.customDomainDomainName)
              (awsToString output.serviceArn)) e),
          { d with
            id := encodeCustomDomainAssociationID
              (awsToString output.customDomainDomainName)
              (awsToString output.serviceArn)
            dns_target := awsToString output.dnsTarget }⟩ ∧
      (resourceCustomDomainAssociationCreate d
        (Except.ok (some output)) (some e) cd ferr).d.id ≠ "" := by
  intro d output e cd ferr
  have henc : encodeCustomDomainAssociationID
      (awsToString output.customDomainDomainName)
      (awsToString output.serviceArn) ≠ "" := by
    intro h
    have h2 := congrArg String.data h
    simp [encodeCustomDomainAssociationID, String.data_append] at h2
  exact ⟨rfl, henc⟩

/-- C5: when the Associate call itself fails, Create surfaces the error and
records no partial state: the resource data is returned unchanged, so the
identity is never set and dnsTarget is not recorded. -/
theorem create_associate_error_keeps_state_unchanged :
    ∀ (d : ResourceData) (e : AWSError) (w : Option String)
      (cd : Option CustomDomain) (ferr : Option AWSError),
      resourceCustomDomainAssociationCreate d (Except.error e) w cd ferr =
        ⟨some (Diag.associatingError d.domain_name d.service_arn e), d⟩ :=
  fun _ _ _ _ _ => rfl

/-- C4: a not-found from the Describe step yields an explicit absence
(state dropped, no diagnostics) when the resource is not freshly created,
and a distinct post-create error (state kept) when it is. -/
theorem read_not_found_absent_or_post_create :
    (∀ (d : ResourceData) (p : String × String),
      customDomainAssociationParseID d.id = Except.ok p →
      d.isNewResource = false →
      resourceCustomDomainAssociationRead d none
        (some AWSError.resourceNotFoundException) =
        ⟨none, { d with id := "" }⟩) ∧
    (∀ (d : ResourceData) (p : String × String),
      customDomainAssociationParseID d.id = Except.ok p →
      d.isNewResource = true →
      resourceCustomDomainAssociationRead d none
        (some AWSError.resourceNotFoundException) =
        ⟨some (Diag.emptyOutputAfterCreation d.id), d⟩) := by
  constructor
  · intro d p hp hnew
    obtain ⟨a, b⟩ := p
    simp [resourceCustomDomainAssociationRead, hp, hnew, isResourceNotFound]
  · intro d p hp hnew
    obtain ⟨a, b⟩ := p
    simp [resourceCustomDomainAssociationRead, hp, hnew, isResourceNotFound]

/-- C4 witness: both branches at a concrete association. -/
theorem read_not_found_absent_or_post_create_witness :
    resourceCustomDomainAssociationRead
      ⟨"a,b", false, "a", "b", true, "", "", []⟩ none
      (some AWSError.resourceNotFoundException) =
      ⟨none, ⟨"", false, "a", "b", true, "", "", []⟩⟩ ∧
    resourceCustomDomainAssociationRead
      ⟨"a,b", true, "a", "b", true, "", "", []⟩ none
      (some AWSError.resourceNotFoundException) =
      ⟨some (Diag.emptyOutputAfterCreation ("a,b")),
        ⟨"a,b", true, "a", "b", true, "", "", []⟩⟩ :=
  ⟨read_not_found_absent_or_post_create.1
      ⟨"a,b", false, "a", "b", true, "", "", []⟩ ("a", "b") rfl rfl,
    read_not_found_absent_or_post_create.2
      ⟨"a,b", true, "a", "b", true, "", "", []⟩ ("a", "b") rfl rfl⟩

/-- C8: as soon as the waiter observes a status in the terminal-failure set
it returns Failed naming that status at that very observation, for every
remaining amount of fuel (so without waiting for the deadline); in
particular the probe sequence [pending, create-failed] with
failure = {create-failed} fails at the second probe. -/
theorem waiter_failure_immediate :
    (∀ (probe : Nat → Except String Observation) (success : List Observation)
        (failure : List String) (i fuel : Nat) (s : String),
      probe i = Except.ok (Observation.status s) →
      Observation.status s ∉ success → s ∈ failure →
      waiter probe success failure i fuel = (WaitOutcome.failed s, i + 1)) ∧
    (∀ fuel : Nat,
      waiter c8Probe [Observation.status ("active")] [("create-failed")]
          0 (fuel + 1) =
        (WaitOutcome.failed ("create-failed"), 2)) := by
  have hgen : ∀ (probe : Nat → Except String Observation)
      (success : List Observation) (failure : List String) (i fuel : Nat)
      (s : String),
      probe i = Except.ok (Observation.status s) →
      Observation.status s ∉ success → s ∈ failure →
      waiter probe success failure i fuel = (WaitOutcome.failed s, i + 1) := by
    intro probe success failure i fuel s hp hns hf
    have hs : waiterStep (probe i) success failure =
        some (WaitOutcome.failed s) := by
      rw [hp]
      simp [waiterStep, hns, hf]
    cases fuel with
    | zero => simp [waiter, hs]
    | succ f => simp [waiter, hs]
  refine ⟨hgen, ?_⟩
  intro fuel
  have hs0 : waiterStep (c8Probe 0) [Observation.status ("active")]
      [("create-failed")] = none := by
    simp [c8Probe, waiterStep]
  have hstep : waiter c8Probe [Observation.status ("active")]
      [("create-failed")] 0 (fuel + 1) =
      waiter c8Probe [Observation.status ("active")] [("create-failed")]
        1 fuel := by
    simp [waiter, hs0]
  rw [hstep]
  exact hgen c8Probe [Observation.status ("active")] [("create-failed")]
    1 fuel ("create-failed") (by simp [c8Probe]) (by simp) (by simp)

/-- C8 witness: the failing observation terminates the wait at once at a
concrete probe index and fuel. -/
theorem waiter_failure_immediate_witness :
    waiter c8Probe [Observation.status ("active")] [("create-failed")] 1 5 =
      (WaitOutcome.failed ("create-failed"), 2) :=
  waiter_failure_immediate.1 c8Probe [Observation.status ("active")]
    [("create-failed")] 1 5 ("create-failed") rfl (by simp) (by simp)

theorem read_id_of_new (d : ResourceData) (cd : Option CustomDomain)
    (ferr : Option AWSError) (h : d.isNewResource = true) :
    (resourceCustomDomainAssociationRead d cd ferr).d.id = d.id := by
  unfold resourceCustomDomainAssociationRead
  cases hp : customDomainAssociationParseID d.id with
  | error msg => rfl
  | ok p =>
    obtain ⟨a, b⟩ := p
    simp only [h]
    cases cd with
    | none => simp [h]
    | some c => simp [h]

/-- C9: the identity a Create records is built from the domain name and
service identifier echoed back in the Associate response, for every value
of the caller-supplied arguments held in the resource data. -/
theorem create_id_from_response :
    ∀ (d : ResourceData) (output : AssociateCustomDomainOutput)
      (w : Option String) (cd : Option CustomDomain) (ferr : Option AWSError),
      d.isNewResource = true →
      (resourceCustomDomainAssociationCreate d
        (Except.ok (some output)) w cd ferr).d.id =
        encodeCustomDomainAssociationID
          (awsToString output.customDomainDomainName)
          (awsToString output.serviceArn) := by
  intro d output w cd ferr h
  cases w with
  | some e => rfl
  | none =>
    exact read_id_of_new
      { d with
        id := encodeCustomDomainAssociationID
          (awsToString output.customDomainDomainName)
          (awsToString output.serviceArn)
        dns_target := awsToString output.dnsTarget } cd ferr h

/-- C9 witness: the response carries normalized values different from the
caller arguments, and the recorded identity reflects the response. -/
theorem create_id_from_response_witness :
    (resourceCustomDomainAssociationCreate
      ⟨"", true, "example.com", "svc-1", true, "", "", []⟩
      (Except.ok (some ⟨some ("EXAMPLE.com"), some ("abc.awsapprunner.com"),
        some ("arn-normalized")⟩))
      none none none).d.id = "EXAMPLE.com,arn-normalized" := by
  rw [create_id_from_response
    ⟨"", true, "example.com", "svc-1", true, "", "", []⟩
    ⟨some ("EXAMPLE.com"), some ("abc.awsapprunner.com"),
      some ("arn-normalized")⟩ none none none rfl]
  rfl

/-- C10: flattening the remote certificate validation records preserves the
number and order of records, and maps each record to exactly the four
fields name, status, type and value of the corresponding remote record. -/
theorem flatten_preserves_records :
    ∀ records : List CertificateValidationRecord,
      flattenCustomDomainCertificateValidationRecords records =
        records.map (fun r =>
          { name := awsToString r.name
            status := r.status
            type := awsToString r.type
            value := awsToString r.value }) ∧
      (flattenCustomDomainCertificateValidationRecords records).length =
        records.length := by
  intro records
  have h1 : flattenCustomDomainCertificateValidationRecords records =
      records.map (fun r =>
        { name := awsToString r.name
          status := r.status
          type := awsToString r.type
          value := awsToString r.value }) := by
    induction records with
    | nil => rfl
    | cons r rest ih =>
      simp [flattenCustomDomainCertificateValidationRecords, ih]
  exact ⟨h1, by rw [h1, List.length_map]⟩
